import Mathlib

/-!
Shallow embedding of `src/protocol/upd.go` (package `protocol` of hamgo).

Byte buffers are modelled as `List Nat` (each element a byte value; the Go
byte type's range is immaterial for the parsers, which only compose bytes
into larger integers, and the encoders only emit values reduced `% 256`).
Machine-integer fields (`uint8`, `uint16`, `uint32`, `uint64`) are modelled
as `Nat`; wherever the Go code writes such a field to the wire the per-byte
`% 256` reductions of `putLE` realise the truncation the Go type performs.

The external collaborators `Contact` and `Message` are opaque in the source
(their codecs live in other files); they are modelled as type parameters
together with explicit codec functions, exactly as the source calls them:
`ParseMessage : bytes -> Message-or-nil` (the source discards the second
return value), `ParseContact : bytes -> (Contact-or-nil, remaining bytes)`.

Go functions that can panic (an out-of-range slice expression) are modelled
with an `Option` result whose `none` marks the panic.
-/

namespace Hamgo

/-- Little-endian write of `k` bytes of `v` (`binary.LittleEndian.PutUintN`). -/
def putLE : Nat → Nat → List Nat
  | 0, _ => []
  | k + 1, v => v % 256 :: putLE k (v / 256)

/-- Little-endian read of the first `k` bytes (`binary.LittleEndian.UintN`);
callers in the source always check the buffer is long enough first. -/
def getLE : Nat → List Nat → Nat
  | 0, _ => 0
  | _ + 1, [] => 0
  | k + 1, b :: bs => b + 256 * getLE k bs

/-- `UpdPayload` (upd.go lines 17-21). -/
structure UpdPayload where
  operation : Nat
  dataLength : Nat
  data : List Nat
deriving DecidableEq

/-- `UpdRequestCacheEntry` (upd.go lines 26-29), `Contact` opaque. -/
structure UpdRequestCacheEntry (C : Type) where
  seqCounter : Nat
  source : C
deriving DecidableEq

/-- `UpdPayloadCacheRequest` (upd.go lines 32-35). -/
structure UpdPayloadCacheRequest (C : Type) where
  numEntries : Nat
  entries : List (UpdRequestCacheEntry C)
deriving DecidableEq

/-- `UpdPayloadEntry` (upd.go lines 41-44), `Message` opaque. -/
structure UpdPayloadEntry (M : Type) where
  length : Nat
  message : M
deriving DecidableEq

/-- `UpdPayloadCacheResponse` (upd.go lines 48-51). -/
structure UpdPayloadCacheResponse (M : Type) where
  numEntries : Nat
  entries : List (UpdPayloadEntry M)
deriving DecidableEq

/-- `UpdPayloadEntry.Bytes` (upd.go lines 54-66): 4-byte length prefix of the
message encoding, then the message encoding.  The struct's `Length` field is
not consulted. -/
def UpdPayloadEntry.Bytes {M : Type} (mb : M → List Nat) (e : UpdPayloadEntry M) : List Nat :=
  putLE 4 (mb e.message).length ++ mb e.message

/-- `ParsePayloadEntry` (upd.go lines 70-95).  Returns the parsed entry (or
`none`) and the remaining buffer (`none` models the Go `nil` slice returned on
the two length-check failures).  On a message-decode failure the remainder is
`buf[4+L:]`, the skip-by-declared-length remainder. -/
def ParsePayloadEntry {M : Type} (pm : List Nat → Option M) (buf : List Nat) :
    Option (UpdPayloadEntry M) × Option (List Nat) :=
  if buf.length < 4 then (none, none)
  else if buf.length < 4 + getLE 4 buf then (none, none)
  else
    match pm (buf.drop 4) with
    | none => (none, some (buf.drop (4 + getLE 4 buf)))
    | some m => (some { length := getLE 4 buf, message := m }, some (buf.drop (4 + getLE 4 buf)))

/-- `UpdRequestCacheEntry.Bytes` (upd.go lines 98-108).  The source allocates
`len(ct)+4` bytes (not `len(ct)+8`): `PutUint64` into `buf[0:8]` panics when
`len(ct)+4 < 8` (modelled by `none`), and otherwise `copy(buf[8:], ct)` only
copies the first `len(ct)+4-8` bytes of the contact encoding. -/
def UpdRequestCacheEntry.Bytes {C : Type} (cb : C → List Nat) (e : UpdRequestCacheEntry C) :
    Option (List Nat) :=
  if (cb e.source).length + 4 < 8 then none
  else some (putLE 8 e.seqCounter ++ (cb e.source).take ((cb e.source).length + 4 - 8))

/-- `ParseCacheEntry` (upd.go lines 111-132): needs at least 9 bytes, reads an
8-byte counter, then delegates to the contact decoder; a contact failure fails
the entry. -/
def ParseCacheEntry {C : Type} (pc : List Nat → Option (C × List Nat)) (buf : List Nat) :
    Option (UpdRequestCacheEntry C × List Nat) :=
  if buf.length < 9 then none
  else
    match pc (buf.drop 8) with
    | none => none
    | some (ct, rbuf) => some ({ seqCounter := getLE 8 buf, source := ct }, rbuf)

/-- `UpdPayloadCacheRequest.Bytes` (upd.go lines 135-159): 4-byte `NumEntries`
field, then the concatenated entry encodings.  `none` propagates a panic of an
entry encoding. -/
def UpdPayloadCacheRequest.Bytes {C : Type} (cb : C → List Nat) (r : UpdPayloadCacheRequest C) :
    Option (List Nat) :=
  match r.entries.mapM (UpdRequestCacheEntry.Bytes cb) with
  | none => none
  | some ents => some (putLE 4 r.numEntries ++ ents.flatten)

/-- `UpdPayloadCacheResponse.Bytes` (upd.go lines 162-184): 4-byte `NumEntries`
field, then the concatenated entry encodings. -/
def UpdPayloadCacheResponse.Bytes {M : Type} (mb : M → List Nat) (r : UpdPayloadCacheResponse M) :
    List Nat :=
  putLE 4 r.numEntries ++ (r.entries.map (UpdPayloadEntry.Bytes mb)).flatten

/-- The `for i := 0; i < int(pcr.NumEntries); i++` loop of
`ParsePayloadCacheResponse` (upd.go lines 198-208).  On a failed entry the
source executes `continue` without assigning `buf = rbuf`, so the state buffer
is unchanged; on success it sets `buf = rbuf` (a `nil` remainder becomes the
empty buffer, `rbuf.getD []`). -/
def responseEntriesLoop {M : Type} (pm : List Nat → Option M) :
    Nat → List Nat → List (UpdPayloadEntry M)
  | 0, _ => []
  | fuel + 1, buf =>
    match ParsePayloadEntry pm buf with
    | (none, _) => responseEntriesLoop pm fuel buf
    | (some m, rbuf) => m :: responseEntriesLoop pm fuel (rbuf.getD [])

/-- `ParsePayloadCacheResponse` (upd.go lines 187-211): `nil` for buffers
shorter than 4 bytes, otherwise the declared count and the loop's entries. -/
def ParsePayloadCacheResponse {M : Type} (pm : List Nat → Option M) (buf : List Nat) :
    Option (UpdPayloadCacheResponse M) :=
  if buf.length < 4 then none
  else some { numEntries := getLE 4 buf
              entries := responseEntriesLoop pm (getLE 4 buf) (buf.drop 4) }

/-- The `for i := 0; i < int(cr.NumEntries); i++` loop of
`ParsePayloadCacheRequest` (upd.go lines 226-240).  On a failed entry the
source executes `continue` with `buf` unchanged; on success it appends the
entry, sets `buf = rbuf` and breaks when the remainder is empty. -/
def requestEntriesLoop {C : Type} (pc : List Nat → Option (C × List Nat)) :
    Nat → List Nat → List (UpdRequestCacheEntry C)
  | 0, _ => []
  | fuel + 1, buf =>
    match ParseCacheEntry pc buf with
    | none => requestEntriesLoop pc fuel buf
    | some (e, rbuf) => if rbuf.isEmpty then [e] else e :: requestEntriesLoop pc fuel rbuf

/-- `ParsePayloadCacheRequest` (upd.go lines 214-243): `nil` for buffers
shorter than 4 bytes, otherwise the declared count and the loop's entries. -/
def ParsePayloadCacheRequest {C : Type} (pc : List Nat → Option (C × List Nat)) (buf : List Nat) :
    Option (UpdPayloadCacheRequest C) :=
  if buf.length < 4 then none
  else some { numEntries := getLE 4 buf
              entries := requestEntriesLoop pc (getLE 4 buf) (buf.drop 4) }

/-- `UpdPayload.Bytes` (upd.go lines 246-258).  The slice expression
`u.Data[:u.DataLength]` panics when `DataLength > len(Data)` (modelled by
`none`); otherwise the encoding is the operation byte, the 2-byte length and
the first `DataLength` bytes of `Data`. -/
def UpdPayload.Bytes (u : UpdPayload) : Option (List Nat) :=
  if u.data.length < u.dataLength then none
  else some (u.operation :: putLE 2 u.dataLength ++ u.data.take u.dataLength)

/-- `ParseUpdPayload` (upd.go lines 261-290): fails below 3 bytes, then reads
the operation byte and the 2-byte length, fails (twice-checked in the source)
when the declared length exceeds the remaining bytes, else returns exactly
that many data bytes. -/
def ParseUpdPayload (buf : List Nat) : Option UpdPayload :=
  if buf.length < 3 then none
  else if buf.length - 3 < getLE 2 (buf.drop 1) then none
  else if buf.length < 3 + getLE 2 (buf.drop 1) then none
  else some { operation := buf.headD 0
              dataLength := getLE 2 (buf.drop 1)
              data := (buf.drop 3).take (getLE 2 (buf.drop 1)) }

/-- Spec-side description used by claim C9: the longest prefix of
consecutively parseable entries, reading at most `fuel` (the declared count)
entries and stopping at the first entry `ParsePayloadEntry` fails on; entries
after a failure are never recovered. -/
def consecutiveEntries {M : Type} (pm : List Nat → Option M) :
    Nat → List Nat → List (UpdPayloadEntry M)
  | 0, _ => []
  | fuel + 1, buf =>
    match ParsePayloadEntry pm buf with
    | (none, _) => []
    | (some m, rbuf) => m :: consecutiveEntries pm fuel (rbuf.getD [])

/-! ### Concrete instantiations of the external codecs

The source treats `Contact` and `Message` as opaque types with their own
codecs.  The following small concrete codecs are used to evaluate the
embedded functions at explicit inputs (witnesses and counterexamples); each
satisfies the contract the spec assumes of the real codec (in particular the
round-trip property, definitionally). -/

/-- A concrete message encoder: tag byte 77 followed by the message value. -/
def toyMB (m : Nat) : List Nat := [77, m]

/-- A concrete message decoder matching `toyMB`; any buffer not starting with
the tag byte 77 is unparseable garbage. -/
def toyPM : List Nat → Option Nat
  | 77 :: m :: _ => some m
  | _ => none

/-- A concrete contact encoder: tag byte 1 followed by the contact value. -/
def toyCB (c : Nat) : List Nat := [1, c]

/-- A concrete contact decoder matching `toyCB`, self-delimiting. -/
def toyPC : List Nat → Option (Nat × List Nat)
  | 1 :: c :: r => some (c, r)
  | _ => none

/-- A concrete contact encoder producing 5-byte encodings (long enough that
`UpdRequestCacheEntry.Bytes` does not panic). -/
def toyCB5 (c : Nat) : List Nat := [5, c, 0, 0, 0]

/-- A concrete contact decoder matching `toyCB5`, self-delimiting. -/
def toyPC5 : List Nat → Option (Nat × List Nat)
  | 5 :: c :: 0 :: 0 :: 0 :: r => some (c, r)
  | _ => none

/-! ### Helper lemmas about the little-endian primitives -/

theorem putLE_length (k v : Nat) : (putLE k v).length = k := by
  induction k generalizing v with
  | zero => rfl
  | succ k ih => simp [putLE, ih]

theorem getLE_putLE_append (k : Nat) :
    ∀ (v : Nat) (r : List Nat), getLE k (putLE k v ++ r) = v % 256 ^ k := by
  induction k with
  | zero => intro v r; simp [putLE, getLE, Nat.mod_one]
  | succ k ih =>
    intro v r
    have h256 : (256 : Nat) ^ (k + 1) = 256 * 256 ^ k := by
      rw [pow_succ, Nat.mul_comm]
    rw [putLE, List.cons_append, getLE, ih (v / 256) r, h256, Nat.mod_mul]

theorem drop_putLE_append (k v : Nat) (r : List Nat) : (putLE k v ++ r).drop k = r := by
  have h := List.drop_left (putLE k v) r
  rwa [putLE_length] at h

/-! ### Claim C1 -/

/-- Claim C1 (code bug evaluation).  A CacheResponse buffer with three
length-prefixed entries, the second of which carries garbage of the same
declared length (2 bytes, not starting with the message tag): the third entry
parses fine in isolation (third conjunct) and the message decoder indeed
fails on the garbage (second conjunct), yet `ParsePayloadCacheResponse`
returns only the first entry — the loop discards the skip remainder that
`ParsePayloadEntry` returns on failure, so the cursor never advances past the
corrupted entry and entry 3 is never recovered, contradicting the claimed
skip-by-declared-length-and-continue behaviour. -/
theorem c1_code_eval :
    ParsePayloadCacheResponse toyPM
        [3, 0, 0, 0, 2, 0, 0, 0, 77, 10, 2, 0, 0, 0, 99, 99, 2, 0, 0, 0, 77, 30] =
      some { numEntries := 3, entries := [{ length := 2, message := 10 }] } ∧
    toyPM [99, 99, 2, 0, 0, 0, 77, 30] = none ∧
    ParsePayloadEntry toyPM [2, 0, 0, 0, 77, 30] =
      (some { length := 2, message := 30 }, some []) := by
  decide

/-! ### Claim C2 -/

/-- Claim C2 (counterexample).  A 3-byte buffer is too short to contain the
4-byte count prefix, and both parsers return an absent result (`nil`) on it,
not a list: the claim that they never return an absent result is false. -/
theorem c2_cex :
    ParsePayloadCacheResponse toyPM [1, 2, 3] = none ∧
    ParsePayloadCacheRequest toyPC [1, 2, 3] = none := by
  decide

/-- Claim C2 (amended).  For every message decoder, contact decoder and input
buffer, `ParsePayloadCacheResponse` and `ParsePayloadCacheRequest` return a
present (possibly empty or partial) result exactly when the buffer holds at
least the 4-byte count prefix; buffers shorter than 4 bytes yield `nil`. -/
theorem c2_thm {M C : Type} (pm : List Nat → Option M) (pc : List Nat → Option (C × List Nat))
    (buf : List Nat) :
    ((ParsePayloadCacheResponse pm buf).isSome ↔ 4 ≤ buf.length) ∧
    ((ParsePayloadCacheRequest pc buf).isSome ↔ 4 ≤ buf.length) := by
  constructor
  · unfold ParsePayloadCacheResponse
    split <;> simp <;> omega
  · unfold ParsePayloadCacheRequest
    split <;> simp <;> omega

/-! ### Claim C3 -/

/-- Claim C3 (counterexample).  A CacheResponse value whose `NumEntries` field
is 7 but whose `Entries` list is empty encodes a count field of 7, not the
list length 0: the count written is not the length of the list. -/
theorem c3_cex :
    getLE 4 (UpdPayloadCacheResponse.Bytes toyMB
        { numEntries := 7, entries := ([] : List (UpdPayloadEntry Nat)) }) ≠
      ({ numEntries := 7, entries := ([] : List (UpdPayloadEntry Nat)) } :
        UpdPayloadCacheResponse Nat).entries.length := by
  decide

/-- Claim C3 (amended).  The 4-byte count field written by
`UpdPayloadCacheResponse.Bytes` and `UpdPayloadCacheRequest.Bytes` is the
struct's `NumEntries` field (reduced mod 2^32, as a uint32), independently of
the length of the `Entries` list; it equals the list length only when the
caller stored that length in `NumEntries`. -/
theorem c3_thm {M C : Type} (mb : M → List Nat) (cb : C → List Nat)
    (resp : UpdPayloadCacheResponse M) (req : UpdPayloadCacheRequest C) (bs : List Nat)
    (h : UpdPayloadCacheRequest.Bytes cb req = some bs) :
    getLE 4 (UpdPayloadCacheResponse.Bytes mb resp) = resp.numEntries % 2 ^ 32 ∧
    getLE 4 bs = req.numEntries % 2 ^ 32 := by
  have h32 : (256 : Nat) ^ 4 = 2 ^ 32 := by norm_num
  constructor
  · unfold UpdPayloadCacheResponse.Bytes
    rw [getLE_putLE_append, h32]
  · unfold UpdPayloadCacheRequest.Bytes at h
    rcases hm : req.entries.mapM (UpdRequestCacheEntry.Bytes cb) with _ | ents
    · rw [hm] at h; exact absurd h (by simp)
    · rw [hm] at h
      have hbs := Option.some.inj h
      rw [← hbs, getLE_putLE_append, h32]

/-- Claim C3 (witness for the amended theorem). -/
theorem c3_thm_witness :
    getLE 4 (UpdPayloadCacheResponse.Bytes toyMB
        { numEntries := 7, entries := ([] : List (UpdPayloadEntry Nat)) }) = 7 % 2 ^ 32 ∧
    getLE 4 [3, 0, 0, 0] = 3 % 2 ^ 32 :=
  c3_thm toyMB toyCB5 { numEntries := 7, entries := [] } { numEntries := 3, entries := [] }
    [3, 0, 0, 0] (by decide)

/-! ### Claim C4 -/

/-- Claim C4 (counterexample).  `UpdPayload.Bytes` is not total on values
where `DataLength` differs from `len(Data)`: with `DataLength = 1` and empty
`Data`, the slice expression `u.Data[:u.DataLength]` is out of range and the
encoder panics (modelled as `none`). -/
theorem c4_cex :
    UpdPayload.Bytes { operation := 0, dataLength := 1, data := [] } = none := by
  decide

/-- Claim C4 (amended).  `UpdPayload.Bytes` returns a buffer exactly on the
values whose `DataLength` does not exceed `len(Data)` (on which it never
panics), and panics on the rest; the decoders are total functions on
arbitrary byte buffers (they are defined for every input, as the other
claims' theorems exhibit). -/
theorem c4_thm (u : UpdPayload) :
    (UpdPayload.Bytes u).isSome ↔ u.dataLength ≤ u.data.length := by
  unfold UpdPayload.Bytes
  split <;> simp <;> omega

/-! ### Claim C5 -/

/-- Claim C5 (code bug evaluation).  With a contact codec that round-trips
(third conjunct), the well-formed CacheRequest value with one entry
(`NumEntries = 1 = len(Entries)`) encodes to a buffer in which the last 4
bytes of the 5-byte contact encoding are missing — `UpdRequestCacheEntry.Bytes`
allocates `len(ct)+4` instead of `len(ct)+8` bytes — so decoding the encoding
returns zero entries instead of the original value: `decode (encode v) ≠ v`. -/
theorem c5_code_eval :
    UpdPayloadCacheRequest.Bytes toyCB5
        { numEntries := 1, entries := [{ seqCounter := 1, source := 9 }] } =
      some [1, 0, 0, 0, 1, 0, 0, 0, 0, 0, 0, 0, 5] ∧
    ParsePayloadCacheRequest toyPC5 [1, 0, 0, 0, 1, 0, 0, 0, 0, 0, 0, 0, 5] =
      some { numEntries := 1, entries := [] } ∧
    toyPC5 (toyCB5 9 ++ []) = some (9, []) := by
  decide

/-! ### Claim C8 -/

/-- Claim C8 (code bug evaluation).  `ParsePayloadEntry` does compute a
strictly shorter skip remainder for a corrupted entry (first conjunct: a
10-byte buffer shrinks to the 6-byte remainder), but the response loop
discards it: in the full decode the iteration that skips the corrupted first
entry leaves the remaining buffer unchanged, so the parseable second entry
(second conjunct) is never reached and the decode returns no entries (third
conjunct) — the cursor does not advance strictly forward through the buffer
on a skip. -/
theorem c8_code_eval :
    ParsePayloadEntry toyPM [0, 0, 0, 0, 2, 0, 0, 0, 77, 9] =
      (none, some [2, 0, 0, 0, 77, 9]) ∧
    ParsePayloadEntry toyPM [2, 0, 0, 0, 77, 9] =
      (some { length := 2, message := 9 }, some []) ∧
    ParsePayloadCacheResponse toyPM [2, 0, 0, 0, 0, 0, 0, 0, 2, 0, 0, 0, 77, 9] =
      some { numEntries := 2, entries := [] } := by
  decide

/-! ### Claim C6 -/

/-- Claim C6.  `ParseUpdPayload` returns an error (`nil`) exactly when the
buffer is shorter than 3 bytes or the declared 2-byte little-endian
data-length exceeds the bytes remaining after the 3-byte header; on success
it returns the operation byte, the declared length and exactly that many data
bytes.  (A 3-byte buffer with data-length 0 succeeds with empty data and any
2-byte buffer fails, as instances of the equivalence.) -/
theorem c6_thm (buf : List Nat) (u : UpdPayload) :
    (ParseUpdPayload buf = none ↔
      buf.length < 3 ∨ buf.length - 3 < getLE 2 (buf.drop 1)) ∧
    (ParseUpdPayload buf = some u →
      u.operation = buf.headD 0 ∧ u.dataLength = getLE 2 (buf.drop 1) ∧
      u.data = (buf.drop 3).take (getLE 2 (buf.drop 1)) ∧
      u.data.length = u.dataLength) := by
  constructor
  · unfold ParseUpdPayload
    split
    next h => exact iff_of_true rfl (Or.inl h)
    next h =>
      split
      next h2 => exact iff_of_true rfl (Or.inr h2)
      next h2 =>
        split
        next h3 => omega
        next h3 => exact iff_of_false (by simp) (by omega)
  · intro hu
    unfold ParseUpdPayload at hu
    split at hu
    · exact absurd hu (by simp)
    next h =>
      split at hu
      · exact absurd hu (by simp)
      next h2 =>
        split at hu
        · exact absurd hu (by simp)
        next h3 =>
          obtain rfl := Option.some.inj hu
          refine ⟨rfl, rfl, rfl, ?_⟩
          simp only [List.length_take, List.length_drop]
          omega

/-- Claim C6 (witness): the theorem applied to the 4-byte buffer
`[7, 1, 0, 42]` (operation 7, declared length 1, one data byte). -/
theorem c6_thm_witness :
    ({ operation := 7, dataLength := 1, data := [42] } : UpdPayload).operation =
        [7, 1, 0, 42].headD 0 ∧
    ({ operation := 7, dataLength := 1, data := [42] } : UpdPayload).dataLength =
        getLE 2 ([7, 1, 0, 42].drop 1) ∧
    ({ operation := 7, dataLength := 1, data := [42] } : UpdPayload).data =
        ([7, 1, 0, 42].drop 3).take (getLE 2 ([7, 1, 0, 42].drop 1)) ∧
    ({ operation := 7, dataLength := 1, data := [42] } : UpdPayload).data.length =
        ({ operation := 7, dataLength := 1, data := [42] } : UpdPayload).dataLength :=
  (c6_thm [7, 1, 0, 42] { operation := 7, dataLength := 1, data := [42] }).2 (by decide)

/-! ### Claim C9 -/

/-- Once `ParsePayloadEntry` fails on `buf`, the response loop makes no
further progress: the `continue` leaves `buf` unchanged, every remaining
iteration re-parses the same bytes and fails identically, so no further
entry is produced. -/
theorem responseEntriesLoop_stuck {M : Type} (pm : List Nat → Option M) (buf : List Nat)
    (h : (ParsePayloadEntry pm buf).1 = none) :
    ∀ fuel, responseEntriesLoop pm fuel buf = [] := by
  intro fuel
  induction fuel with
  | zero => rfl
  | succ f ih =>
    unfold responseEntriesLoop
    rcases hpe : ParsePayloadEntry pm buf with ⟨o, r⟩
    rw [hpe] at h
    cases o with
    | none => exact ih
    | some m => exact Option.noConfusion h

/-- The response loop computes exactly the longest prefix of consecutively
parseable entries (bounded by the declared count). -/
theorem responseEntriesLoop_eq_consecutive {M : Type} (pm : List Nat → Option M) :
    ∀ (fuel : Nat) (buf : List Nat),
      responseEntriesLoop pm fuel buf = consecutiveEntries pm fuel buf := by
  intro fuel
  induction fuel with
  | zero => intro buf; rfl
  | succ f ih =>
    intro buf
    unfold responseEntriesLoop consecutiveEntries
    rcases hpe : ParsePayloadEntry pm buf with ⟨o, r⟩
    cases o with
    | none => exact responseEntriesLoop_stuck pm buf (by rw [hpe]) f
    | some m => exact congrArg (fun l => m :: l) (ih (r.getD []))

/-- Claim C9.  For every message decoder and input buffer, the entries
returned by `ParsePayloadCacheResponse` are exactly the longest prefix of
consecutively parseable entries before the first failure (bounded by the
declared count): a failed iteration leaves the remaining buffer unchanged, so
every subsequent claimed entry re-parses the same bytes and fails
identically, and no entry after a failure is ever recovered. -/
theorem c9_thm {M : Type} (pm : List Nat → Option M) (buf : List Nat) :
    ParsePayloadCacheResponse pm buf =
      if buf.length < 4 then none
      else some { numEntries := getLE 4 buf
                  entries := consecutiveEntries pm (getLE 4 buf) (buf.drop 4) } := by
  unfold ParsePayloadCacheResponse
  rw [responseEntriesLoop_eq_consecutive]

/-! ### Claim C10 -/

/-- Claim C10.  `UpdPayload.Bytes` serialises exactly the first `DataLength`
bytes of `Data`; when `Data` is at least as long as `DataLength` the excess
bytes are silently dropped from the encoding, and `ParseUpdPayload` of the
result yields `Data` truncated to `DataLength` rather than the original
`Data`. -/
theorem c10_thm (u : UpdPayload) (h1 : u.dataLength ≤ u.data.length)
    (h2 : u.dataLength < 2 ^ 16) :
    UpdPayload.Bytes u =
      some (u.operation :: putLE 2 u.dataLength ++ u.data.take u.dataLength) ∧
    (UpdPayload.Bytes u).bind ParseUpdPayload =
      some { operation := u.operation, dataLength := u.dataLength
             data := u.data.take u.dataLength } := by
  have hb : UpdPayload.Bytes u =
      some (u.operation :: putLE 2 u.dataLength ++ u.data.take u.dataLength) := by
    unfold UpdPayload.Bytes
    rw [if_neg (by omega)]
  refine ⟨hb, ?_⟩
  rw [hb]
  show ParseUpdPayload (u.operation :: putLE 2 u.dataLength ++ u.data.take u.dataLength) = _
  have hlen : (u.operation :: putLE 2 u.dataLength ++ u.data.take u.dataLength).length =
      3 + u.dataLength := by
    simp [putLE_length, List.length_take]
    omega
  have hdl : getLE 2 ((u.operation :: putLE 2 u.dataLength ++ u.data.take u.dataLength).drop 1) =
      u.dataLength := by
    show getLE 2 (putLE 2 u.dataLength ++ u.data.take u.dataLength) = u.dataLength
    rw [getLE_putLE_append]
    have h216 : (256 : Nat) ^ 2 = 2 ^ 16 := by norm_num
    rw [h216]
    exact Nat.mod_eq_of_lt h2
  have hdrop3 : (u.operation :: putLE 2 u.dataLength ++ u.data.take u.dataLength).drop 3 =
      u.data.take u.dataLength := by
    show (putLE 2 u.dataLength ++ u.data.take u.dataLength).drop 2 = u.data.take u.dataLength
    exact drop_putLE_append 2 u.dataLength (u.data.take u.dataLength)
  unfold ParseUpdPayload
  rw [hlen, hdl, hdrop3]
  rw [if_neg (by omega), if_neg (by omega), if_neg (by omega)]
  simp [List.take_take]

/-- Claim C10 (witness): a payload whose `Data` has 3 bytes but whose
`DataLength` is 2 encodes to 5 bytes and decodes back with the third data
byte dropped. -/
theorem c10_thm_witness :
    UpdPayload.Bytes { operation := 1, dataLength := 2, data := [10, 20, 30] } =
      some ((1 : Nat) :: putLE 2 2 ++ [10, 20, 30].take 2) ∧
    (UpdPayload.Bytes { operation := 1, dataLength := 2, data := [10, 20, 30] }).bind
        ParseUpdPayload =
      some { operation := 1, dataLength := 2, data := [10, 20, 30].take 2 } :=
  c10_thm { operation := 1, dataLength := 2, data := [10, 20, 30] } (by decide) (by decide)

/-! ### Claim C7 -/

/-- Once `ParseCacheEntry` fails on `buf`, the request loop makes no further
progress: the `continue` leaves `buf` unchanged and every remaining iteration
fails identically. -/
theorem requestEntriesLoop_stuck {C : Type} (pc : List Nat → Option (C × List Nat))
    (buf : List Nat) (h : ParseCacheEntry pc buf = none) :
    ∀ fuel, requestEntriesLoop pc fuel buf = [] := by
  intro fuel
  induction fuel with
  | zero => rfl
  | succ f ih =>
    unfold requestEntriesLoop
    rw [h]
    exact ih

/-- Decoding a wire image made of complete entries (8-byte counter followed by
a nonempty contact encoding that the contact decoder consumes exactly)
recovers exactly those entries, for any loop bound at least their number. -/
theorem requestEntriesLoop_wire {C : Type} (pc : List Nat → Option (C × List Nat))
    (cb : C → List Nat) (hrt : ∀ c r, pc (cb c ++ r) = some (c, r)) :
    ∀ (cs : List (Nat × C)) (fuel : Nat),
      (∀ p ∈ cs, cb p.2 ≠ []) → (∀ p ∈ cs, p.1 < 2 ^ 64) → cs.length ≤ fuel →
      requestEntriesLoop pc fuel ((cs.map (fun p => putLE 8 p.1 ++ cb p.2)).flatten) =
        cs.map (fun p => { seqCounter := p.1, source := p.2 }) := by
  intro cs
  induction cs with
  | nil =>
    intro fuel _ _ _
    simp only [List.map_nil, List.flatten_nil]
    exact requestEntriesLoop_stuck pc [] (by simp [ParseCacheEntry]) fuel
  | cons p rest ih =>
    intro fuel hne hseq hlen
    cases fuel with
    | zero => simp at hlen
    | succ f =>
      simp only [List.map_cons, List.flatten_cons, List.append_assoc]
      have hcb : cb p.2 ≠ [] := hne p (List.mem_cons_self p rest)
      have hcblen : 0 < (cb p.2).length := List.length_pos.mpr hcb
      have h64 : (256 : Nat) ^ 8 = 2 ^ 64 := by norm_num
      have hentry : ParseCacheEntry pc
          (putLE 8 p.1 ++ (cb p.2 ++ (rest.map (fun q => putLE 8 q.1 ++ cb q.2)).flatten)) =
          some ({ seqCounter := p.1, source := p.2 },
            (rest.map (fun q => putLE 8 q.1 ++ cb q.2)).flatten) := by
        unfold ParseCacheEntry
        rw [if_neg (by simp [putLE_length]; omega)]
        rw [drop_putLE_append, hrt p.2 _]
        rw [getLE_putLE_append, h64, Nat.mod_eq_of_lt (hseq p (List.mem_cons_self p rest))]
      have hstep : requestEntriesLoop pc (f + 1)
          (putLE 8 p.1 ++ (cb p.2 ++ (rest.map (fun q => putLE 8 q.1 ++ cb q.2)).flatten)) =
          if ((rest.map (fun q => putLE 8 q.1 ++ cb q.2)).flatten).isEmpty
          then [({ seqCounter := p.1, source := p.2 } : UpdRequestCacheEntry C)]
          else { seqCounter := p.1, source := p.2 } ::
            requestEntriesLoop pc f ((rest.map (fun q => putLE 8 q.1 ++ cb q.2)).flatten) := by
        simp only [requestEntriesLoop, hentry]
      rw [hstep]
      rcases rest with _ | ⟨q, rest2⟩
      · simp
      · have hbody : ((List.map (fun q => putLE 8 q.1 ++ cb q.2) (q :: rest2)).flatten).isEmpty =
            false := rfl
        rw [hbody]
        have hrec := ih f (fun r hr => hne r (List.mem_cons_of_mem p hr))
          (fun r hr => hseq r (List.mem_cons_of_mem p hr))
          (by simp at hlen ⊢; omega)
        simp only [Bool.false_eq_true, if_false]
        exact congrArg (List.cons { seqCounter := p.1, source := p.2 }) hrec

/-- Claim C7.  A CacheRequest buffer whose declared count `n` is at least the
number of complete entries actually present (each entry: an 8-byte sequence
counter below 2^64 and a nonempty contact encoding, with nothing after the
last entry) decodes — for any contact codec that round-trips — to exactly the
entries present, without error, stopping when the buffer is exhausted. -/
theorem c7_thm {C : Type} (pc : List Nat → Option (C × List Nat)) (cb : C → List Nat)
    (cs : List (Nat × C)) (n : Nat)
    (hrt : ∀ c r, pc (cb c ++ r) = some (c, r))
    (hne : ∀ p ∈ cs, cb p.2 ≠ [])
    (hseq : ∀ p ∈ cs, p.1 < 2 ^ 64)
    (hcount : cs.length ≤ n) (hn : n < 2 ^ 32) :
    ParsePayloadCacheRequest pc
        (putLE 4 n ++ (cs.map (fun p => putLE 8 p.1 ++ cb p.2)).flatten) =
      some { numEntries := n
             entries := cs.map (fun p => { seqCounter := p.1, source := p.2 }) } := by
  have h32 : (256 : Nat) ^ 4 = 2 ^ 32 := by norm_num
  unfold ParsePayloadCacheRequest
  rw [if_neg (by simp [putLE_length])]
  rw [getLE_putLE_append, h32, Nat.mod_eq_of_lt hn, drop_putLE_append]
  rw [requestEntriesLoop_wire pc cb hrt cs n hne hseq hcount]

/-- Claim C7 (witness): declared count 5, but only the two entries
`(3, 4)` and `(5, 6)` present; exactly those two decode. -/
theorem c7_thm_witness :
    ParsePayloadCacheRequest toyPC
        (putLE 4 5 ++ (([(3, 4), (5, 6)] : List (Nat × Nat)).map
          (fun p => putLE 8 p.1 ++ toyCB p.2)).flatten) =
      some { numEntries := 5
             entries := ([(3, 4), (5, 6)] : List (Nat × Nat)).map
               (fun p => { seqCounter := p.1, source := p.2 }) } :=
  c7_thm toyPC toyCB [(3, 4), (5, 6)] 5 (fun c r => rfl) (by decide) (by decide)
    (by decide) (by decide)

end Hamgo
